import Mathlib

/-!
Shallow embedding of the `tail` library's polling change watcher
(`watch/polling.go`), its Windows file-identity shim (`tail_windows.go`),
and the spec-described initial-position resolution of the tail engine.

Go's runtime values are modelled explicitly: `os.Stat` becomes a function
from path strings to `Except GoError FileInfo`, `runtime.GOOS` a parameter,
the polling loop a fuel-indexed recursion over a schedule of stat results
and of the tomb's dying signal.
-/

namespace Tail

/-- Model of a Go `error` value as classified by `os.IsNotExist` /
`os.IsPermission`, plus the distinguished `tomb.ErrDying` sentinel. -/
inductive GoError where
  | notFound
  | permissionDenied
  | errDying
  | other (code : Nat)
  deriving DecidableEq, Repr

/-- `os.IsNotExist`. -/
def GoError.isNotExist : GoError → Bool
  | .notFound => true
  | _ => false

/-- `os.IsPermission`. -/
def GoError.isPermission : GoError → Bool
  | .permissionDenied => true
  | _ => false

/-- Model of `runtime.GOOS`, distinguishing only what the code inspects. -/
inductive GOOS where
  | windows
  | linux
  | darwin
  deriving DecidableEq, Repr

/-- Model of `fs.FileInfo`: `Name()` (base name for infos produced by
`os.File.Stat`), `Size()`, and the identity data (`dev`+`ino` on POSIX)
that `os.SameFile` compares. -/
structure FileInfo where
  name : String
  size : Int
  fileId : Nat
  deriving DecidableEq, Repr

/-- `os.SameFile`: two `FileInfo`s describe the same underlying file. -/
def sameFile (a b : FileInfo) : Bool :=
  a.fileId == b.fileId

/-- Model of the filesystem as seen by one `os.Stat` call. -/
abbrev FileSystem := String → Except GoError FileInfo

/-- The `ChangeType` enumeration of the `watch` package. -/
inductive ChangeType where
  | None
  | Modified
  | Truncated
  | Deleted
  deriving DecidableEq, Repr

/-- `StatChanges(openedFileInfo, pos)` from `watch/polling.go`:
re-stats `openedFileInfo.Name()` and classifies the outcome, returning
the Go pair `(ChangeType, error)`. -/
def StatChanges (goos : GOOS) (fs : FileSystem) (openedFileInfo : FileInfo)
    (pos : Int) : ChangeType × Option GoError :=
  match fs openedFileInfo.name with
  | .error err =>
      if err.isNotExist || (goos == .windows && err.isPermission) then
        (.Deleted, none)
      else
        (.None, some err)
  | .ok fi =>
      if !sameFile openedFileInfo fi then
        (.Deleted, none)
      else if fi.size > pos then
        (.Modified, none)
      else if fi.size < pos then
        (.Truncated, none)
      else
        (.None, none)

/-- The `PollingFileWatcher` struct: it has exactly the fields `Filename`
and `Size`; in particular no polling-interval field. -/
structure PollingFileWatcher where
  Filename : String
  Size : Int
  deriving DecidableEq, Repr

/-- `NewPollingFileWatcher`. -/
def NewPollingFileWatcher (filename : String) : PollingFileWatcher :=
  { Filename := filename, Size := 0 }

/-- The mutable state of the `watch` package: the single package-level
variable `var POLL_DURATION time.Duration` (nanoseconds). -/
structure WatchPackageState where
  POLL_DURATION : Int
  deriving DecidableEq, Repr

/-- The package's `init()`: sets `POLL_DURATION = 250 * time.Millisecond`
(250000000 ns). -/
def watchInit (s : WatchPackageState) : WatchPackageState :=
  { s with POLL_DURATION := 250 * 1000000 }

/-- The polling interval a given watcher sleeps for in its
`time.After(POLL_DURATION)` select arm: every watcher reads the one
package-level variable, irrespective of the receiver. -/
def pollIntervalUsed (s : WatchPackageState) (_fw : PollingFileWatcher) : Int :=
  s.POLL_DURATION

/-- Outcome of a `BlockUntilExists` call. -/
inductive ExistsResult where
  | ok
  | err (e : GoError)
  | dying
  deriving DecidableEq, Repr

/-- `(fw *PollingFileWatcher) BlockUntilExists(t)`: loop re-statting
`fw.Filename`. The environment is a schedule: `statSeq k` is what
`os.Stat(fw.Filename)` returns at loop iteration `k`, and `dyingAt k`
whether `t.Dying()` is closed when iteration `k` reaches its `select`
(a closed channel wins the select over the not-yet-expired timer).
`fuel` bounds the iterations modelled; `none` means the loop is still
polling when the fuel runs out. -/
def BlockUntilExists (fuel : Nat) (fw : PollingFileWatcher)
    (statSeq : Nat → Except GoError FileInfo) (dyingAt : Nat → Bool)
    (k : Nat) : Option ExistsResult :=
  match fuel with
  | 0 => none
  | fuel + 1 =>
      match statSeq k with
      | .ok _ => some .ok
      | .error e =>
          if !e.isNotExist then some (.err e)
          else if dyingAt k then some .dying
          else BlockUntilExists fuel fw statSeq dyingAt (k + 1)

/-- `(fw *PollingFileWatcher) BlockUntilEvent(t, openedFileInfo, pos)`:
loop calling `StatChanges` until it reports an error or a change, with the
same `select` race against `t.Dying()` as `BlockUntilExists`. `fsSeq k` is
the filesystem observed by iteration `k`'s stat. -/
def BlockUntilEvent (fuel : Nat) (goos : GOOS) (_fw : PollingFileWatcher)
    (fsSeq : Nat → FileSystem) (dyingAt : Nat → Bool)
    (openedFileInfo : FileInfo) (pos : Int) (k : Nat) :
    Option (ChangeType × Option GoError) :=
  match fuel with
  | 0 => none
  | fuel + 1 =>
      match StatChanges goos (fsSeq k) openedFileInfo pos with
      | (_, some e) => some (.None, some e)
      | (changeType, none) =>
          if changeType ≠ .None then some (changeType, none)
          else if dyingAt k then some (.None, some .errDying)
          else BlockUntilEvent fuel goos _fw fsSeq dyingAt openedFileInfo pos (k + 1)

/-- `SeekInfo` (the spec's SeekSpec wire shape):
`{Offset, Whence (0=start,1=current,2=end), FileIdentifier: optional}`. -/
structure SeekInfo where
  Offset : Int
  Whence : Int
  FileIdentifier : Option String
  deriving DecidableEq, Repr

/-- The recognized `Config` options of `TailFile`. -/
structure Config where
  Follow : Bool := false
  ReOpen : Bool := false
  Poll : Bool := false
  Location : Option SeekInfo := none
  deriving DecidableEq, Repr

/-- An emitted `Line`: text and the byte offset immediately after the
line's terminator (the resumable position). -/
structure Line where
  Text : String
  Offset : Int
  deriving DecidableEq, Repr

/-- Splits the bytes at and after the read position into complete lines,
each paired with the byte offset just past its `\n` terminator; a trailing
partial line without a terminator is buffered, not emitted. `acc` holds the
bytes of the current line read so far, in reverse. -/
def splitLoop : List Char → List Char → Int → List Line
  | [], _acc, _pos => []
  | c :: cs, acc, pos =>
      if c = '\n' then
        { Text := acc.reverse.asString, Offset := pos + 1 } :: splitLoop cs [] (pos + 1)
      else
        splitLoop cs (c :: acc) (pos + 1)

/-- Modelled from the spec: the tail engine's resolution of the initial
read position (the engine source `tail.go` is not in the repository
snapshot; only its tests and the spec describe it). From §4.3: if a
`FileIdentifier` is supplied and does not match the identity of the file
currently at the path, the offset is ignored and reading starts at the
beginning of the new file; otherwise seek per the `SeekInfo` (0=start,
1=current — 0 at open — 2=end). When `config.Location` is absent the
spec says whence=end, but the repository's own e2e test
(`TestTail_Offsets`, "Offsets without FileIdentifier") writes "hello\n"
before `TailFile` with no `Location` and expects the pre-existing
`{Text:"hello", Offset:6}` as the first line, so the program starts at
byte 0; this model follows the program. -/
def resolveInitialPosition (config : Config) (currentId : String)
    (fileSize : Int) : Int :=
  match config.Location with
  | none => 0
  | some loc =>
      match loc.FileIdentifier with
      | some ident =>
          if ident ≠ currentId then 0
          else seekTo loc fileSize
      | none => seekTo loc fileSize
where
  /-- Seek per whence: 0=start, 1=current (0 at open time), 2=end. -/
  seekTo (loc : SeekInfo) (fileSize : Int) : Int :=
    if loc.Whence = 0 then loc.Offset
    else if loc.Whence = 2 then fileSize + loc.Offset
    else loc.Offset

/-- Modelled from the spec: the lines a tailer emits, given the file's
content at open time, the bytes appended afterwards, and the identity of
the file currently at the path. The engine resolves the initial position
from `config.Location` and then reads and splits everything from that
byte onward (§4.3 `Following`). -/
def tailEmitted (config : Config) (contentAtOpen appended : List Char)
    (currentId : String) : List Line :=
  let start := resolveInitialPosition config currentId contentAtOpen.length
  splitLoop ((contentAtOpen ++ appended).drop start.toNat) [] start

/-- Model of `windows.ByHandleFileInformation`: the three fields the
Windows `FileIdentifier` reads. -/
structure ByHandleFileInformation where
  VolumeSerialNumber : Nat
  FileIndexHigh : Nat
  FileIndexLow : Nat
  deriving DecidableEq, Repr

/-- `FileIdentifier(file)` from `tail_windows.go`: calls
`GetFileInformationByHandle` (modelled by its outcome `getInfo`), returns
its error unchanged on failure, otherwise formats
`fmt.Sprintf("%d:%d:%d", VolumeSerialNumber, FileIndexHigh, FileIndexLow)`. -/
def FileIdentifier (getInfo : Except GoError ByHandleFileInformation) :
    Except GoError String :=
  match getInfo with
  | .error e => .error e
  | .ok data =>
      .ok (toString data.VolumeSerialNumber ++ ":" ++
           toString data.FileIndexHigh ++ ":" ++ toString data.FileIndexLow)

/-- Reads a decimal digit string (most significant digit first) back into
the number it denotes; inverts the `%d` formatting used by
`FileIdentifier`. -/
def readNatAcc : Nat → List Char → Nat
  | acc, [] => acc
  | acc, c :: cs => readNatAcc (10 * acc + (c.toNat - 48)) cs

/-- The base name of a slash-separated path (what `FileInfo.Name()`
returns for an info produced by `os.File.Stat`): the suffix after the
last slash. -/
def baseName (path : String) : String :=
  ((path.toList.reverse.takeWhile (· ≠ '/')).reverse).asString

/-! ## Theorems about the polling watcher -/

/-- C1: when the stat of the path succeeds, `StatChanges` returns
`Deleted` (nil error) whenever the stat'd file is not the same file as
the opened handle, regardless of size; otherwise the result is determined
solely by comparing the fresh size to `pos`: greater gives `Modified`,
smaller gives `Truncated`, equal gives `None`, always with a nil error. -/
theorem statChanges_stat_ok_classification
    (goos : GOOS) (fs : FileSystem) (info fi : FileInfo) (pos : Int)
    (hstat : fs info.name = Except.ok fi) :
    (sameFile info fi = false → StatChanges goos fs info pos = (ChangeType.Deleted, none)) ∧
    (sameFile info fi = true →
      (pos < fi.size → StatChanges goos fs info pos = (ChangeType.Modified, none)) ∧
      (fi.size < pos → StatChanges goos fs info pos = (ChangeType.Truncated, none)) ∧
      (fi.size = pos → StatChanges goos fs info pos = (ChangeType.None, none))) := by
  unfold StatChanges
  rw [hstat]
  constructor
  · intro h
    simp [h]
  · intro h
    refine ⟨fun hsz => ?_, fun hsz => ?_, fun hsz => ?_⟩
    · simp [h, hsz]
    · have : ¬(fi.size > pos) := by omega
      simp [h, this, hsz]
    · have h1 : ¬(fi.size > pos) := by omega
      have h2 : ¬(fi.size < pos) := by omega
      simp [h, h1, h2]

theorem statChanges_stat_ok_classification_witness :
    StatChanges GOOS.linux (fun _ => Except.ok ⟨"t", 5, 1⟩) ⟨"t", 0, 1⟩ 3
      = (ChangeType.Modified, none) := by
  have h := statChanges_stat_ok_classification GOOS.linux
    (fun _ => Except.ok ⟨"t", 5, 1⟩) ⟨"t", 0, 1⟩ ⟨"t", 5, 1⟩ 3 rfl
  exact (h.2 (by decide)).1 (by decide)

/-- C4: when the stat of the path fails, `StatChanges` returns
`(Deleted, nil)` for a not-found error, `(Deleted, nil)` for a
permission-denied error on Windows, and propagates any other stat error
to the caller with change type `None`. -/
theorem statChanges_stat_error_classification
    (goos : GOOS) (fs : FileSystem) (info : FileInfo) (pos : Int) (e : GoError)
    (hstat : fs info.name = Except.error e) :
    (e.isNotExist = true → StatChanges goos fs info pos = (ChangeType.Deleted, none)) ∧
    (goos = GOOS.windows → e.isPermission = true →
        StatChanges goos fs info pos = (ChangeType.Deleted, none)) ∧
    (e.isNotExist = false → ¬(goos = GOOS.windows ∧ e.isPermission = true) →
        StatChanges goos fs info pos = (ChangeType.None, some e)) := by
  unfold StatChanges
  rw [hstat]
  refine ⟨fun h => by simp [h], fun hg hp => by simp [hg, hp], fun h1 h2 => ?_⟩
  have hcond : (goos == GOOS.windows && e.isPermission) = false := by
    cases goos <;> cases e <;> simp_all
  simp [h1, hcond]

theorem statChanges_stat_error_classification_witness :
    StatChanges GOOS.linux (fun _ => Except.error (GoError.other 5)) ⟨"t", 0, 1⟩ 3
      = (ChangeType.None, some (GoError.other 5)) := by
  have h := statChanges_stat_error_classification GOOS.linux
    (fun _ => Except.error (GoError.other 5)) ⟨"t", 0, 1⟩ 3 (GoError.other 5) rfl
  exact h.2.2 (by decide) (by simp)

/-- C5 counterexample: the path still holds a file (the stat succeeds)
whose identity differs from the opened handle and whose size shrank; the
code classifies this as `Deleted`, not `Truncated` as the claim states. -/
theorem statChanges_identity_change_cex :
    StatChanges GOOS.linux (fun _ => Except.ok ⟨"test.log", 3, 2⟩) ⟨"test.log", 5, 1⟩ 5
      = (ChangeType.Deleted, none) ∧
    ChangeType.Deleted ≠ ChangeType.Truncated := by
  refine ⟨by decide, by decide⟩

/-- C5 amended: an identity change while a file still exists at the path
is classified as `Deleted` (rotation detection); `Truncated` is reported
exactly when the stat'd file is the same file and its size is smaller
than `pos`. -/
theorem statChanges_identity_change_amended
    (goos : GOOS) (fs : FileSystem) (info fi : FileInfo) (pos : Int)
    (hstat : fs info.name = Except.ok fi) :
    (sameFile info fi = false → StatChanges goos fs info pos = (ChangeType.Deleted, none)) ∧
    ((StatChanges goos fs info pos).1 = ChangeType.Truncated ↔
        sameFile info fi = true ∧ fi.size < pos) := by
  unfold StatChanges
  rw [hstat]
  constructor
  · intro h
    simp [h]
  · cases hs : sameFile info fi
    · simp [hs]
    · by_cases h1 : fi.size > pos
      · simp [hs, h1]
        omega
      · by_cases h2 : fi.size < pos
        · simp [hs, h1, h2]
        · simp [hs, h1, h2]

theorem statChanges_identity_change_amended_witness :
    StatChanges GOOS.linux (fun _ => Except.ok ⟨"test.log", 3, 2⟩) ⟨"test.log", 5, 1⟩ 7
      = (ChangeType.Deleted, none) := by
  have h := statChanges_identity_change_amended GOOS.linux
    (fun _ => Except.ok ⟨"test.log", 3, 2⟩) ⟨"test.log", 5, 1⟩ ⟨"test.log", 3, 2⟩ 7 rfl
  exact h.1 (by decide)

/-- C6: once the tomb's dying signal is up at a blocking wait's `select`,
the wait returns at that very iteration — for any remaining fuel and any
later schedule, i.e. without waiting out further polling rounds:
`BlockUntilExists` returns `tomb.ErrDying` and `BlockUntilEvent` returns
`(None, tomb.ErrDying)`. -/
theorem dying_interrupts_polling_waits
    (fuel : Nat) (goos : GOOS) (fw : PollingFileWatcher)
    (statSeq : Nat → Except GoError FileInfo) (fsSeq : Nat → FileSystem)
    (dyingAt : Nat → Bool) (info : FileInfo) (pos : Int) (k : Nat) (e : GoError)
    (hdying : dyingAt k = true) :
    (statSeq k = Except.error e → e.isNotExist = true →
        BlockUntilExists (fuel + 1) fw statSeq dyingAt k = some ExistsResult.dying) ∧
    (StatChanges goos (fsSeq k) info pos = (ChangeType.None, none) →
        BlockUntilEvent (fuel + 1) goos fw fsSeq dyingAt info pos k
          = some (ChangeType.None, some GoError.errDying)) := by
  constructor
  · intro hstat hne
    unfold BlockUntilExists
    rw [hstat]
    simp [hne, hdying]
  · intro hsc
    unfold BlockUntilEvent
    rw [hsc]
    simp [hdying]

theorem dying_interrupts_polling_waits_witness :
    BlockUntilExists 1 (NewPollingFileWatcher "t") (fun _ => Except.error GoError.notFound)
        (fun _ => true) 0 = some ExistsResult.dying ∧
    BlockUntilEvent 1 GOOS.linux (NewPollingFileWatcher "t")
        (fun _ _ => Except.ok ⟨"t", 0, 1⟩) (fun _ => true) ⟨"t", 0, 1⟩ 0 0
      = some (ChangeType.None, some GoError.errDying) := by
  have h := dying_interrupts_polling_waits 0 GOOS.linux (NewPollingFileWatcher "t")
    (fun _ => Except.error GoError.notFound) (fun _ _ => Except.ok ⟨"t", 0, 1⟩)
    (fun _ => true) ⟨"t", 0, 1⟩ 0 0 GoError.notFound rfl
  exact ⟨h.1 rfl rfl, h.2 (by decide)⟩

/-- C7 counterexample: the polling interval is not per-watcher
configuration. Watcher "b" is never touched, yet the interval it sleeps
for is whatever the package-level `POLL_DURATION` currently holds: setting
the package variable to 100 (while some other watcher polls) changes the
interval used by "b" away from the 250ms that `init` installed, and every
watcher observes the same value. -/
theorem poll_duration_shared_cex :
    pollIntervalUsed { POLL_DURATION := 100 } (NewPollingFileWatcher "b") = 100 ∧
    pollIntervalUsed (watchInit { POLL_DURATION := 100 }) (NewPollingFileWatcher "b")
      = 250 * 1000000 ∧
    (100 : Int) ≠ 250 * 1000000 ∧
    pollIntervalUsed { POLL_DURATION := 100 } (NewPollingFileWatcher "a")
      = pollIntervalUsed { POLL_DURATION := 100 } (NewPollingFileWatcher "b") := by
  refine ⟨rfl, rfl, by decide, rfl⟩

/-- C7 amended: the polling interval is the single package-level mutable
variable `POLL_DURATION`, set to 250ms by the package `init`; the
`PollingFileWatcher` struct carries no interval field, so the interval a
watcher uses is a function of the package state alone — identical for
every watcher instance. -/
theorem poll_duration_package_global (s s0 : WatchPackageState)
    (w w' : PollingFileWatcher) :
    (watchInit s0).POLL_DURATION = 250 * 1000000 ∧
    pollIntervalUsed s w = pollIntervalUsed s w' :=
  ⟨rfl, rfl⟩

/-- `BlockUntilEvent` never reads its receiver: the `PollingFileWatcher`
(and hence its `Filename` field) does not influence the result. -/
theorem blockUntilEvent_ignores_watcher (fuel : Nat) (goos : GOOS)
    (fw fw' : PollingFileWatcher) (fsSeq : Nat → FileSystem)
    (dyingAt : Nat → Bool) (info : FileInfo) (pos : Int) (k : Nat) :
    BlockUntilEvent fuel goos fw fsSeq dyingAt info pos k
      = BlockUntilEvent fuel goos fw' fsSeq dyingAt info pos k := by
  induction fuel generalizing k with
  | zero => rfl
  | succ n ih =>
      unfold BlockUntilEvent
      cases hsc : StatChanges goos (fsSeq k) info pos with
      | mk ct err =>
          cases err with
          | some e => simp
          | none =>
              by_cases hct : ct = ChangeType.None
              · subst hct
                by_cases hd : dyingAt k
                · simp [hd]
                · simp [hd, ih]
              · simp [hct]

/-- C9: change detection inspects the path `openedFileInfo.Name()` — the
base name of the watched file, resolved relative to the working directory
— and not the watcher's `Filename` field: `StatChanges` is determined by
the filesystem's answer at `baseName path` when the opened info carries
that base name, and `BlockUntilEvent`'s result is the same for any two
watcher receivers. -/
theorem statChanges_uses_base_name
    (goos : GOOS) (fs fs' : FileSystem) (fw fw' : PollingFileWatcher)
    (fsSeq : Nat → FileSystem) (dyingAt : Nat → Bool) (path : String)
    (info : FileInfo) (pos : Int) (fuel k : Nat)
    (hname : info.name = baseName path)
    (hagree : fs (baseName path) = fs' (baseName path)) :
    StatChanges goos fs info pos = StatChanges goos fs' info pos ∧
    BlockUntilEvent fuel goos fw fsSeq dyingAt info pos k
      = BlockUntilEvent fuel goos fw' fsSeq dyingAt info pos k ∧
    baseName "/var/log/test.log" = "test.log" := by
  refine ⟨?_, blockUntilEvent_ignores_watcher fuel goos fw fw' fsSeq dyingAt info pos k, by decide⟩
  unfold StatChanges
  rw [hname, hagree]

theorem statChanges_uses_base_name_witness :
    StatChanges GOOS.linux (fun n => if n = "test.log" then Except.ok ⟨"test.log", 7, 1⟩
        else Except.error GoError.notFound) ⟨"test.log", 7, 1⟩ 7
      = StatChanges GOOS.linux (fun _ => Except.ok ⟨"test.log", 7, 1⟩) ⟨"test.log", 7, 1⟩ 7 := by
  have h := statChanges_uses_base_name GOOS.linux
    (fun n => if n = "test.log" then Except.ok ⟨"test.log", 7, 1⟩
      else Except.error GoError.notFound)
    (fun _ => Except.ok ⟨"test.log", 7, 1⟩) (NewPollingFileWatcher "/var/log/test.log")
    (NewPollingFileWatcher "other") (fun _ _ => Except.error GoError.notFound)
    (fun _ => false) "/var/log/test.log" ⟨"test.log", 7, 1⟩ 7 0 0 (by decide) rfl
  exact h.1

/-- C10: `BlockUntilExists` has no Windows permission-denied special case:
a stat failing with permission-denied makes it return that error at once
(its definition consults no GOOS at all, so this holds on every platform),
whereas `StatChanges` on Windows maps the same failure to `(Deleted, nil)`;
only a not-found failure makes `BlockUntilExists` poll again. -/
theorem blockUntilExists_no_windows_permission_case
    (fuel : Nat) (fw : PollingFileWatcher) (statSeq : Nat → Except GoError FileInfo)
    (dyingAt : Nat → Bool) (k : Nat) (e : GoError)
    (hstat : statSeq k = Except.error e) (hperm : e.isPermission = true) :
    BlockUntilExists (fuel + 1) fw statSeq dyingAt k = some (ExistsResult.err e) ∧
    (∀ (fs : FileSystem) (info : FileInfo) (pos : Int), fs info.name = Except.error e →
        StatChanges GOOS.windows fs info pos = (ChangeType.Deleted, none)) ∧
    (∀ (statSeq' : Nat → Except GoError FileInfo) (dyingAt' : Nat → Bool),
        statSeq' k = Except.error GoError.notFound → dyingAt' k = false →
        BlockUntilExists (fuel + 1) fw statSeq' dyingAt' k
          = BlockUntilExists fuel fw statSeq' dyingAt' (k + 1)) := by
  have hne : e.isNotExist = false := by
    cases e <;> simp_all [GoError.isPermission, GoError.isNotExist]
  refine ⟨?_, ?_, ?_⟩
  · unfold BlockUntilExists
    rw [hstat]
    simp [hne]
  · intro fs info pos hfs
    unfold StatChanges
    rw [hfs]
    simp [hperm]
  · intro statSeq' dyingAt' hstat' hd'
    conv_lhs => unfold BlockUntilExists
    rw [hstat']
    simp [GoError.isNotExist, hd']

theorem blockUntilExists_no_windows_permission_case_witness :
    BlockUntilExists 3 (NewPollingFileWatcher "t")
        (fun _ => Except.error GoError.permissionDenied) (fun _ => false) 0
      = some (ExistsResult.err GoError.permissionDenied) := by
  have h := blockUntilExists_no_windows_permission_case 2 (NewPollingFileWatcher "t")
    (fun _ => Except.error GoError.permissionDenied) (fun _ => false) 0
    GoError.permissionDenied rfl rfl
  exact h.1

/-! ## Theorems about the engine's initial-position resolution
(modelled from the spec, the engine source being absent from the
snapshot) -/

/-- C3 (code-bug demonstration): at the e2e test's input — "hello\n"
already in the file at open, nothing appended, `Location` omitted — the
program emits the pre-existing line `{Text := "hello", Offset := 6}` (the
test's expected first line), whereas the claimed whence=end default would
start at the open-time length and emit nothing. -/
theorem default_location_emits_existing :
    tailEmitted { Follow := true, ReOpen := true } "hello\n".toList [] "dev1:ino1"
      = [{ Text := "hello", Offset := 6 }] ∧
    splitLoop (("hello\n".toList ++ []).drop "hello\n".toList.length) []
        ("hello\n".toList.length) = [] := by
  exact ⟨rfl, rfl⟩

/-- C2: a stored offset whose `FileIdentifier` does not match the identity
of the file now at the path is ignored: reading starts at byte 0 of the
new file, whatever the stored offset; in the spec's rotation scenario
(new file "world\n", stale offset 6 with the old file's identifier) the
first emitted line is `{Text := "world", Offset := 6}`, not a read from
byte 6. -/
theorem rotation_discards_stale_offset
    (config : Config) (loc : SeekInfo) (ident currentId : String)
    (content appended : List Char)
    (hloc : config.Location = some loc)
    (hident : loc.FileIdentifier = some ident)
    (hne : ident ≠ currentId) :
    tailEmitted config content appended currentId
      = splitLoop (content ++ appended) [] 0 ∧
    tailEmitted { Follow := true, ReOpen := true,
                  Location := some { Offset := 6, Whence := 0,
                                     FileIdentifier := some ident } }
        "world\n".toList [] currentId
      = [{ Text := "world", Offset := 6 }] := by
  constructor
  · have h0 : resolveInitialPosition config currentId content.length = 0 := by
      simp [resolveInitialPosition, hloc, hident, hne]
    unfold tailEmitted
    rw [h0]
    rfl
  · have h0 : resolveInitialPosition
        { Follow := true, ReOpen := true,
          Location := some { Offset := 6, Whence := 0,
                             FileIdentifier := some ident } }
        currentId ("world\n".toList.length) = 0 := by
      simp [resolveInitialPosition, hne]
    unfold tailEmitted
    rw [h0]
    rfl

theorem rotation_discards_stale_offset_witness :
    tailEmitted { Follow := true, ReOpen := true,
                  Location := some { Offset := 6, Whence := 0,
                                     FileIdentifier := some "dev1:ino7" } }
        "world\n".toList [] "dev1:ino9"
      = [{ Text := "world", Offset := 6 }] := by
  exact (rotation_discards_stale_offset
    { Follow := true, ReOpen := true,
      Location := some { Offset := 6, Whence := 0,
                         FileIdentifier := some "dev1:ino7" } }
    { Offset := 6, Whence := 0, FileIdentifier := some "dev1:ino7" }
    "dev1:ino7" "dev1:ino9" "world\n".toList [] rfl rfl (by decide)).2

/-! ## The Windows identity token: decimal formatting facts -/

theorem toString_nat_eq_repr (n : Nat) : toString n = Nat.repr n := rfl

theorem readNatAcc_append (a : Nat) (xs ys : List Char) :
    readNatAcc a (xs ++ ys) = readNatAcc (readNatAcc a xs) ys := by
  induction xs generalizing a with
  | nil => rfl
  | cons c cs ih => exact ih (10 * a + (c.toNat - 48))

theorem digitChar_ne_colon (d : Nat) : Nat.digitChar d ≠ ':' := by
  by_cases h : d < 16
  · interval_cases d <;> decide
  · have h0 : d ≠ 0 := by omega
    have h1 : d ≠ 1 := by omega
    have h2 : d ≠ 2 := by omega
    have h3 : d ≠ 3 := by omega
    have h4 : d ≠ 4 := by omega
    have h5 : d ≠ 5 := by omega
    have h6 : d ≠ 6 := by omega
    have h7 : d ≠ 7 := by omega
    have h8 : d ≠ 8 := by omega
    have h9 : d ≠ 9 := by omega
    have h10 : d ≠ 10 := by omega
    have h11 : d ≠ 11 := by omega
    have h12 : d ≠ 12 := by omega
    have h13 : d ≠ 13 := by omega
    have h14 : d ≠ 14 := by omega
    have h15 : d ≠ 15 := by omega
    simp [Nat.digitChar, h0, h1, h2, h3, h4, h5, h6, h7, h8, h9, h10, h11,
      h12, h13, h14, h15]

theorem digitChar_toNat_of_lt (d : Nat) (h : d < 10) :
    (Nat.digitChar d).toNat = 48 + d := by
  interval_cases d <;> decide

theorem toDigitsCore_ten_append (fuel : Nat) :
    ∀ (n : Nat) (ds : List Char),
      Nat.toDigitsCore 10 fuel n ds = Nat.toDigitsCore 10 fuel n [] ++ ds := by
  induction fuel with
  | zero => intro n ds; simp [Nat.toDigitsCore]
  | succ f ih =>
      intro n ds
      simp only [Nat.toDigitsCore]
      by_cases h : n / 10 = 0
      · rw [if_pos h, if_pos h]
        rfl
      · rw [if_neg h, if_neg h, ih (n / 10) (Nat.digitChar (n % 10) :: ds),
            ih (n / 10) [Nat.digitChar (n % 10)]]
        simp

theorem mem_toDigitsCore_ten (fuel : Nat) :
    ∀ (n : Nat) (ds : List Char) (c : Char),
      c ∈ Nat.toDigitsCore 10 fuel n ds → c ∈ ds ∨ ∃ d, c = Nat.digitChar d := by
  induction fuel with
  | zero =>
      intro n ds c h
      exact Or.inl (by simpa [Nat.toDigitsCore] using h)
  | succ f ih =>
      intro n ds c h
      simp only [Nat.toDigitsCore] at h
      by_cases h0 : n / 10 = 0
      · rw [if_pos h0] at h
        rcases List.mem_cons.mp h with h1 | h1
        · exact Or.inr ⟨n % 10, h1⟩
        · exact Or.inl h1
      · rw [if_neg h0] at h
        rcases ih (n / 10) (Nat.digitChar (n % 10) :: ds) c h with h1 | h1
        · rcases List.mem_cons.mp h1 with h2 | h2
          · exact Or.inr ⟨n % 10, h2⟩
          · exact Or.inl h2
        · exact Or.inr h1

theorem colon_not_mem_repr (n : Nat) : ':' ∉ (Nat.repr n).data := by
  intro hmem
  have h : ':' ∈ Nat.toDigitsCore 10 (n + 1) n [] := by
    simpa [Nat.repr, Nat.toDigits, List.asString] using hmem
  rcases mem_toDigitsCore_ten (n + 1) n [] ':' h with h1 | ⟨d, hd⟩
  · simp at h1
  · exact digitChar_ne_colon d hd.symm

theorem readNatAcc_toDigitsCore_ten (fuel : Nat) :
    ∀ (n a : Nat), n < fuel →
      readNatAcc a (Nat.toDigitsCore 10 fuel n []) =
        a * 10 ^ (Nat.toDigitsCore 10 fuel n []).length + n := by
  induction fuel with
  | zero => intro n a h; exact absurd h (Nat.not_lt_zero n)
  | succ f ih =>
      intro n a h
      have hlt : n % 10 < 10 := Nat.mod_lt n (by norm_num)
      by_cases h0 : n / 10 = 0
      · have hfmt : Nat.toDigitsCore 10 (f + 1) n [] = [Nat.digitChar (n % 10)] := by
          simp only [Nat.toDigitsCore]
          rw [if_pos h0]
        rw [hfmt]
        have hstep : readNatAcc a [Nat.digitChar (n % 10)]
            = 10 * a + ((Nat.digitChar (n % 10)).toNat - 48) := rfl
        rw [hstep, digitChar_toNat_of_lt (n % 10) hlt]
        simp only [List.length_singleton, pow_one]
        omega
      · have hfmt : Nat.toDigitsCore 10 (f + 1) n []
            = Nat.toDigitsCore 10 f (n / 10) [] ++ [Nat.digitChar (n % 10)] := by
          have hu : Nat.toDigitsCore 10 (f + 1) n []
              = Nat.toDigitsCore 10 f (n / 10) [Nat.digitChar (n % 10)] := by
            simp only [Nat.toDigitsCore]
            rw [if_neg h0]
          rw [hu]
          exact toDigitsCore_ten_append f (n / 10) [Nat.digitChar (n % 10)]
        have hnpos : 0 < n := by
          rcases Nat.eq_zero_or_pos n with rfl | hp
          · simp at h0
          · exact hp
        have hdiv : n / 10 < f := by
          have := Nat.div_lt_self hnpos (by norm_num : 1 < 10)
          omega
        rw [hfmt, readNatAcc_append, ih (n / 10) a hdiv]
        have hstep : readNatAcc
              (a * 10 ^ (Nat.toDigitsCore 10 f (n / 10) []).length + n / 10)
              [Nat.digitChar (n % 10)]
            = 10 * (a * 10 ^ (Nat.toDigitsCore 10 f (n / 10) []).length + n / 10)
              + ((Nat.digitChar (n % 10)).toNat - 48) := rfl
        rw [hstep, digitChar_toNat_of_lt (n % 10) hlt, List.length_append,
          List.length_singleton, pow_succ]
        have hrw : a * ((10 : Nat) ^ (Nat.toDigitsCore 10 f (n / 10) []).length * 10)
            = 10 * (a * 10 ^ (Nat.toDigitsCore 10 f (n / 10) []).length) := by
          ring
        rw [hrw]
        generalize a * (10 : Nat) ^ (Nat.toDigitsCore 10 f (n / 10) []).length = q
        omega

theorem repr_data_inj {n m : Nat} (h : (Nat.repr n).data = (Nat.repr m).data) :
    n = m := by
  have hd : Nat.toDigitsCore 10 (n + 1) n [] = Nat.toDigitsCore 10 (m + 1) m [] := by
    simpa [Nat.repr, Nat.toDigits, List.asString] using h
  have hn := readNatAcc_toDigitsCore_ten (n + 1) n 0 (Nat.lt_succ_self n)
  have hm := readNatAcc_toDigitsCore_ten (m + 1) m 0 (Nat.lt_succ_self m)
  rw [hd] at hn
  simp only [Nat.zero_mul, Nat.zero_add] at hn hm
  exact hn.symm.trans hm

theorem append_colon_cancel :
    ∀ (xs xs' ys ys' : List Char), ':' ∉ xs → ':' ∉ xs' →
      xs ++ ':' :: ys = xs' ++ ':' :: ys' → xs = xs' ∧ ys = ys' := by
  intro xs
  induction xs with
  | nil =>
      intro xs' ys ys' _ hx' h
      cases xs' with
      | nil => simpa using h
      | cons b bs =>
          simp only [List.nil_append, List.cons_append, List.cons.injEq] at h
          exact absurd (by rw [← h.1]; exact List.mem_cons_self _ _) hx'
  | cons a as ih =>
      intro xs' ys ys' hx hx' h
      cases xs' with
      | nil =>
          simp only [List.cons_append, List.nil_append, List.cons.injEq] at h
          exact absurd (by rw [h.1]; exact List.mem_cons_self _ _) hx
      | cons b bs =>
          simp only [List.cons_append, List.cons.injEq] at h
          obtain ⟨h1, h2⟩ := h
          have hx2 : ':' ∉ as := fun hm => hx (List.mem_cons_of_mem _ hm)
          have hx2' : ':' ∉ bs := fun hm => hx' (List.mem_cons_of_mem _ hm)
          obtain ⟨e1, e2⟩ := ih bs ys ys' hx2 hx2' h2
          exact ⟨by rw [h1, e1], e2⟩

/-- C8: the Windows `FileIdentifier` returns the error of
`GetFileInformationByHandle` exactly when that call fails, and otherwise
the token `"<volumeSerial>:<fileIndexHigh>:<fileIndexLow>"` in decimal;
two such tokens are equal iff all three fields match. -/
theorem fileIdentifier_windows_contract
    (e : GoError) (d1 d2 : ByHandleFileInformation) :
    FileIdentifier (Except.error e) = Except.error e ∧
    FileIdentifier (Except.ok ⟨12, 3, 4⟩) = Except.ok "12:3:4" ∧
    (FileIdentifier (Except.ok d1) = FileIdentifier (Except.ok d2) ↔
      d1.VolumeSerialNumber = d2.VolumeSerialNumber ∧
      d1.FileIndexHigh = d2.FileIndexHigh ∧
      d1.FileIndexLow = d2.FileIndexLow) := by
  refine ⟨rfl, rfl, ?_, ?_⟩
  · intro h
    have hs : toString d1.VolumeSerialNumber ++ ":" ++ toString d1.FileIndexHigh
          ++ ":" ++ toString d1.FileIndexLow
        = toString d2.VolumeSerialNumber ++ ":" ++ toString d2.FileIndexHigh
          ++ ":" ++ toString d2.FileIndexLow := by
      simpa [FileIdentifier] using h
    have hdata := congrArg String.data hs
    have hcolon : (":" : String).data = [':'] := rfl
    simp only [String.data_append, hcolon, toString_nat_eq_repr,
      List.append_assoc, List.singleton_append] at hdata
    obtain ⟨e1, erest⟩ := append_colon_cancel _ _ _ _
      (colon_not_mem_repr d1.VolumeSerialNumber)
      (colon_not_mem_repr d2.VolumeSerialNumber) hdata
    obtain ⟨e2, e3⟩ := append_colon_cancel _ _ _ _
      (colon_not_mem_repr d1.FileIndexHigh)
      (colon_not_mem_repr d2.FileIndexHigh) erest
    exact ⟨repr_data_inj e1, repr_data_inj e2, repr_data_inj e3⟩
  · rintro ⟨h1, h2, h3⟩
    simp [FileIdentifier, h1, h2, h3]

end Tail
